import Mathlib

/-!
Verification development for the AcneSense application (jerawat.py).

The definitions below are a shallow embedding of the core logic of the
program: the skin-type mapping and recommendation-row resolution, the
argmax-based classification glue, the acne-label normalization, and the
progress-journal state machine (add / list / delete with a metadata file
and an image directory).  Machine floats of the prediction vector are
modelled as rationals (argmax only compares scores), file-system contents
as explicit state fields, and Python exceptions as Option results.
-/

namespace Acnee

/-! ## Skin-type mapping (jerawat.py lines 140-147, 726) -/

/-- Embedding of the SKIN_TYPE_MAP_TO_CSV dictionary as an association
list, in source order. -/
def SKIN_TYPE_MAP_TO_CSV : List (String × String) :=
  [("Normal", "semua"),
   ("Berminyak", "oily"),
   ("Kering", "semua"),
   ("Kombinasi", "semua"),
   ("Sensitive", "semua"),
   ("Tidak Tahu / Lewati", "semua")]

/-- Embedding of a Python dict .get with a default value: the first
binding of the key wins, and a missing key yields the default. -/
def dictGet (m : List (String × String)) (k d : String) : String :=
  match m.find? (fun p => p.1 == k) with
  | some p => p.2
  | none => d

/-- Embedding of line 726: SKIN_TYPE_MAP_TO_CSV.get(skin_type, "semua"). -/
def userSkinTypeCsv (skinType : String) : String :=
  dictGet SKIN_TYPE_MAP_TO_CSV skinType "semua"

/-- The six user-facing options of the skin-type selectbox (line 575). -/
def skinTypeOptions : List String :=
  ["Tidak Tahu / Lewati", "Normal", "Berminyak", "Kering", "Kombinasi", "Sensitive"]

/-! ## Recommendation table and resolver (jerawat.py lines 726-758) -/

/-- One row of the pengobatan.csv table after load-time normalization:
tingkat (acne type) and jenis kulit (skin type) are strings, kandungan
and rekomendasi may be missing (pandas NaN). -/
structure Row where
  tingkat : String
  jenisKulit : String
  kandungan : Option String
  rekomendasi : Option String
deriving DecidableEq, Repr

/-- Embedding of lines 726-738: filter the table rows by exact acne-type
match, take the first row whose skin type equals the mapped user key,
otherwise the first row whose skin type is the generic key semua,
otherwise no recommendation. -/
def recomRow (table : List Row) (acneClassForCsv : String) (skinType : String) :
    Option Row :=
  match (table.filter (fun r => r.tingkat == acneClassForCsv)).find?
      (fun r => r.jenisKulit == userSkinTypeCsv skinType) with
  | some r => some r
  | none =>
    (table.filter (fun r => r.tingkat == acneClassForCsv)).find?
      (fun r => r.jenisKulit == "semua")

/-! ## Classification glue (jerawat.py lines 644-658) -/

/-- Index and value of the first maximum of a list of scores, scanning
from the head; models the behaviour of np.argmax on a vector. -/
def argmaxPair : List ℚ → Option (Nat × ℚ)
  | [] => none
  | x :: xs =>
    match argmaxPair xs with
    | none => some (0, x)
    | some (j, v) => if x < v then some (j + 1, v) else some (0, x)

/-- Embedding of line 646: acne_index = np.argmax(acne_prediction). -/
def acneIndex (pred : List ℚ) : Nat :=
  match argmaxPair pred with
  | none => 0
  | some jv => jv.1

/-- Whitespace characters of the Python str.strip default set. -/
def pyIsSpace (c : Char) : Bool :=
  c.toNat = 9 || c.toNat = 10 || c.toNat = 11 || c.toNat = 12 ||
    c.toNat = 13 || c.toNat = 32

/-- Embedding of the Python str.strip call: drop whitespace from both
ends of the string. -/
def pyStrip (s : String) : String :=
  ⟨(((s.data.dropWhile pyIsSpace).reverse.dropWhile pyIsSpace).reverse)⟩

/-- Embedding of lines 644-648: np.argmax over the prediction vector,
indexing into class_names (an out-of-range index raises IndexError,
modelled as none; an empty vector raises ValueError in np.argmax,
also none), and the confidence read back from the vector at the
selected index.  The label is stripped as in the source. -/
def classify (pred : List ℚ) (classNames : List String) : Option (String × ℚ) :=
  match pred with
  | [] => none
  | _ :: _ =>
    match classNames.get? (acneIndex pred) with
    | none => none
    | some name => some (pyStrip name, pred.getD (acneIndex pred) 0)

/-! ## Label normalization (jerawat.py lines 650-658) -/

/-- Embedding of the Python str.lower call (ASCII fragment), mapping the
core character lowering over the characters of the string. -/
def pyLower (s : String) : String :=
  ⟨s.data.map Char.toLower⟩

/-- Embedding of lines 650-658: lower-case the raw label, then map the
known plural forms to singular via the if-elif chain (the cystic and
lv0 branches of the source reassign the same value and are kept). -/
def acneClassForCsv (raw : String) : String :=
  if pyLower raw = "blackheads" then "blackhead"
  else if pyLower raw = "whiteheads" then "whitehead"
  else if pyLower raw = "papules" then "papule"
  else if pyLower raw = "pustules" then "pustule"
  else if pyLower raw = "cystic" then "cystic"
  else if pyLower raw = "lv0" then "lv0"
  else pyLower raw

/-! ## Progress journal (jerawat.py lines 30-46, 845-903) -/

/-- One journal entry as stored in journal_metadata.json. -/
structure JournalEntry where
  date : String
  imagePath : String
  note : String
deriving DecidableEq, Repr

/-- State touched by the journal subsystem: the in-memory entry list,
the contents of the metadata file, and the set of image files present
in the journal directory. -/
structure JournalState where
  entries : List JournalEntry
  metadataFile : List JournalEntry
  imageFiles : Finset String

/-- Image filename derived at line 851 from the timestamp and the
original file extension. -/
def imageFilename (timestamp ext : String) : String :=
  "progress_image_" ++ timestamp ++ "." ++ ext

/-- Embedding of the save handler (lines 845-866): write the image file,
append the new entry (with the default note exactly when the supplied
note is empty, line 861), and rewrite the metadata file with the full
list. -/
def addJournalEntry (s : JournalState) (timestamp ext dateStr note : String) :
    JournalState :=
  let entry : JournalEntry :=
    { date := dateStr
      imagePath := imageFilename timestamp ext
      note := if note = "" then "No note." else note }
  { entries := s.entries ++ [entry]
    metadataFile := s.entries ++ [entry]
    imageFiles := insert (imageFilename timestamp ext) s.imageFiles }

/-- Lexicographic strict comparison of two character lists by code
point, as Python compares strings. -/
def charListLt : List Char → List Char → Bool
  | [], [] => false
  | [], _ :: _ => true
  | _ :: _, [] => false
  | a :: as, b :: bs =>
    if a.toNat < b.toNat then true
    else if b.toNat < a.toNat then false
    else charListLt as bs

/-- Strict less-than on the date strings of journal entries, the order
Python sorted uses on the date keys. -/
def dateLtB (a b : String) : Bool :=
  charListLt a.data b.data

/-- Stable descending insertion by date: the new element is placed after
every element whose date is strictly greater, hence before any element
with an equal date that was inserted earlier. -/
def insertDesc (e : JournalEntry) : List JournalEntry → List JournalEntry
  | [] => [e]
  | y :: ys => if dateLtB e.date y.date then y :: insertDesc e ys else e :: y :: ys

/-- Stable sort of the entries by date descending, modelling
sorted(journal_entries, key=lambda x: x[date], reverse=True) at
line 877 (Python string comparison is lexicographic on code points,
as is the String order used here). -/
def sortDescByDate : List JournalEntry → List JournalEntry
  | [] => []
  | x :: xs => insertDesc x (sortDescByDate xs)

/-- Embedding of the history view (lines 875-877): the entries sorted
from newest to oldest; a pure read. -/
def listJournal (s : JournalState) : List JournalEntry :=
  sortDescByDate s.entries

/-- Embedding of the delete handler (lines 895-903): remove the first
occurrence of the entry from the in-memory list, rewrite the metadata
file with the remaining entries, then delete the image file if it
exists (a missing image file is skipped and merely reported, and the
list and metadata updates above stand either way). -/
def deleteJournalEntry (s : JournalState) (e : JournalEntry) : JournalState :=
  let remaining := s.entries.erase e
  { entries := remaining
    metadataFile := remaining
    imageFiles :=
      if e.imagePath ∈ s.imageFiles then s.imageFiles.erase e.imagePath
      else s.imageFiles }

/-! ## Helper lemmas -/

/-- Finding in a filtered list is finding with the conjoined predicate. -/
theorem filter_find?_comp (ft fk : Row → Bool) (table : List Row) :
    (table.filter ft).find? fk = table.find? (fun r => ft r && fk r) := by
  induction table with
  | nil => rfl
  | cons a l ih =>
    cases h1 : ft a <;> cases h2 : fk a <;>
      simp [List.filter_cons, List.find?_cons, h1, h2, ih]

/-- A successful find? returns the first element satisfying the
predicate: everything strictly before it in the list fails it. -/
theorem find?_first_decomp {α : Type} (p : α → Bool) {l : List α} {r : α}
    (h : l.find? p = some r) :
    p r = true ∧ ∃ l₁ l₂, l = l₁ ++ r :: l₂ ∧ ∀ x ∈ l₁, p x = false := by
  obtain ⟨hp, as, bs, heq, hall⟩ := List.find?_eq_some.mp h
  exact ⟨hp, as, bs, heq, fun x hx => by simpa using hall x hx⟩

/-- A satisfying element makes find? succeed. -/
theorem find?_succeeds {α : Type} (p : α → Bool) {l : List α} {x : α}
    (hx : x ∈ l) (hp : p x = true) : ∃ r, l.find? p = some r :=
  Option.isSome_iff_exists.mp (List.find?_isSome.mpr ⟨x, hx, hp⟩)

end Acnee

namespace Acnee

/-! ## Claim theorems -/

/-- C7: for every user-facing skin-type selection in the fixed
enumeration of the selectbox, the mapping to the table skin-type key
sends every selection other than Berminyak (the oily selection) to the
generic key semua, and only Berminyak is mapped to oily. -/
theorem skin_type_map_spec (k : String) (hk : k ∈ skinTypeOptions) :
    userSkinTypeCsv k = if k = "Berminyak" then "oily" else "semua" := by
  simp only [skinTypeOptions, List.mem_cons, List.not_mem_nil, or_false] at hk
  rcases hk with rfl | rfl | rfl | rfl | rfl | rfl <;> decide

/-- Witness for C7 at the oily selection. -/
theorem skin_type_map_spec_witness :
    "Berminyak" ∈ skinTypeOptions ∧
      userSkinTypeCsv "Berminyak" =
        if "Berminyak" = "Berminyak" then "oily" else "semua" :=
  ⟨by decide, skin_type_map_spec "Berminyak" (by decide)⟩

/-- C10: the skin-type-to-table-key mapping is total over all strings:
any skin-type value that is not a key of the fixed map is sent to the
generic default key semua by the dictionary lookup. -/
theorem skin_type_map_total_default (k : String)
    (h : ∀ p ∈ SKIN_TYPE_MAP_TO_CSV, p.1 ≠ k) :
    userSkinTypeCsv k = "semua" := by
  unfold userSkinTypeCsv dictGet
  have hn : SKIN_TYPE_MAP_TO_CSV.find? (fun p => p.1 == k) = none := by
    rw [List.find?_eq_none]
    intro p hp
    simpa using h p hp
  rw [hn]

/-- Witness for C10 at a string outside the map. -/
theorem skin_type_map_total_default_witness :
    (∀ p ∈ SKIN_TYPE_MAP_TO_CSV, p.1 ≠ "Aneh") ∧
      userSkinTypeCsv "Aneh" = "semua" :=
  ⟨by decide, skin_type_map_total_default "Aneh" (by decide)⟩

/-- C8: for every acne type that appears in no row of the table, the
resolver returns no recommendation (NotFound), as a normal value of the
total function recomRow, for every skin-type selection. -/
theorem recomRow_unknown_acne (table : List Row) (ac sk : String)
    (h : ∀ r ∈ table, r.tingkat ≠ ac) :
    recomRow table ac sk = none := by
  unfold recomRow
  have hf : table.filter (fun r => r.tingkat == ac) = [] := by
    rw [List.filter_eq_nil_iff]
    intro r hr
    simpa using h r hr
  simp [hf]

/-- Witness for C8 on a one-row table and an unknown acne type. -/
theorem recomRow_unknown_acne_witness :
    (∀ r ∈ ([⟨"papule", "semua", none, none⟩] : List Row), r.tingkat ≠ "nodule") ∧
      recomRow [⟨"papule", "semua", none, none⟩] "nodule" "Berminyak" = none :=
  ⟨by decide,
    recomRow_unknown_acne [⟨"papule", "semua", none, none⟩] "nodule" "Berminyak"
      (by decide)⟩

/-- C1: the resolver filters the table by exact acne-type match and then
falls back in order.  Conjunct 1: any returned row is a table row of the
requested acne type.  Conjunct 2: when a row of the requested acne type
and the mapped skin-type key exists, the resolver returns the first such
row in table order (never an all-type row when the mapped key differs
from semua).  Conjunct 3: when no such specific row exists but a row of
the requested acne type with the generic key semua does, the resolver
returns the first such generic row in table order.  Conjunct 4: when
neither exists, the resolver returns NotFound. -/
theorem recomRow_fallback (table : List Row) (ac sk : String) :
    (∀ r, recomRow table ac sk = some r → r ∈ table ∧ r.tingkat = ac) ∧
    ((∃ r ∈ table, r.tingkat = ac ∧ r.jenisKulit = userSkinTypeCsv sk) →
      ∃ l₁ r l₂, table = l₁ ++ r :: l₂ ∧ r.tingkat = ac ∧
        r.jenisKulit = userSkinTypeCsv sk ∧
        (∀ r' ∈ l₁, ¬(r'.tingkat = ac ∧ r'.jenisKulit = userSkinTypeCsv sk)) ∧
        recomRow table ac sk = some r) ∧
    ((∀ r ∈ table, r.tingkat = ac → r.jenisKulit ≠ userSkinTypeCsv sk) →
      (∃ r ∈ table, r.tingkat = ac ∧ r.jenisKulit = "semua") →
      ∃ l₁ r l₂, table = l₁ ++ r :: l₂ ∧ r.tingkat = ac ∧ r.jenisKulit = "semua" ∧
        (∀ r' ∈ l₁, ¬(r'.tingkat = ac ∧ r'.jenisKulit = "semua")) ∧
        recomRow table ac sk = some r) ∧
    ((∀ r ∈ table, r.tingkat = ac →
        r.jenisKulit ≠ userSkinTypeCsv sk ∧ r.jenisKulit ≠ "semua") →
      recomRow table ac sk = none) := by
  refine ⟨?_, ?_, ?_, ?_⟩
  · intro r h
    unfold recomRow at h
    cases hf1 : (table.filter (fun r => r.tingkat == ac)).find?
        (fun r => r.jenisKulit == userSkinTypeCsv sk) with
    | some r0 =>
      rw [hf1] at h
      obtain rfl : r0 = r := by simpa using h
      have hm := List.mem_of_find?_eq_some hf1
      rw [List.mem_filter] at hm
      exact ⟨hm.1, by simpa using hm.2⟩
    | none =>
      rw [hf1] at h
      simp only at h
      have hm := List.mem_of_find?_eq_some h
      rw [List.mem_filter] at hm
      exact ⟨hm.1, by simpa using hm.2⟩
  · rintro ⟨r0, hr0m, hr0t, hr0k⟩
    obtain ⟨r, hfind⟩ :=
      find?_succeeds
        (fun r => r.tingkat == ac && r.jenisKulit == userSkinTypeCsv sk) hr0m
        (by simp [hr0t, hr0k])
    obtain ⟨hq, l₁, l₂, heq, hall⟩ := find?_first_decomp _ hfind
    rw [Bool.and_eq_true, beq_iff_eq, beq_iff_eq] at hq
    refine ⟨l₁, r, l₂, heq, hq.1, hq.2, ?_, ?_⟩
    · intro r' hr'
      have := hall r' hr'
      simp only [Bool.and_eq_false_iff, beq_eq_false_iff_ne] at this
      tauto
    · unfold recomRow
      rw [filter_find?_comp, hfind]
  · intro hno ⟨r0, hr0m, hr0t, hr0s⟩
    have hf1 : (table.filter (fun r => r.tingkat == ac)).find?
        (fun r => r.jenisKulit == userSkinTypeCsv sk) = none := by
      rw [List.find?_eq_none]
      intro x hx
      rw [List.mem_filter] at hx
      simpa using hno x hx.1 (by simpa using hx.2)
    obtain ⟨r, hfind⟩ :=
      find?_succeeds (fun r => r.tingkat == ac && r.jenisKulit == "semua") hr0m
        (by simp [hr0t, hr0s])
    obtain ⟨hq, l₁, l₂, heq, hall⟩ := find?_first_decomp _ hfind
    rw [Bool.and_eq_true, beq_iff_eq, beq_iff_eq] at hq
    refine ⟨l₁, r, l₂, heq, hq.1, hq.2, ?_, ?_⟩
    · intro r' hr'
      have := hall r' hr'
      simp only [Bool.and_eq_false_iff, beq_eq_false_iff_ne] at this
      tauto
    · unfold recomRow
      rw [hf1, filter_find?_comp, hfind]
  · intro hno
    have hf1 : (table.filter (fun r => r.tingkat == ac)).find?
        (fun r => r.jenisKulit == userSkinTypeCsv sk) = none := by
      rw [List.find?_eq_none]
      intro x hx
      rw [List.mem_filter] at hx
      simpa using (hno x hx.1 (by simpa using hx.2)).1
    have hf2 : (table.filter (fun r => r.tingkat == ac)).find?
        (fun r => r.jenisKulit == "semua") = none := by
      rw [List.find?_eq_none]
      intro x hx
      rw [List.mem_filter] at hx
      simpa using (hno x hx.1 (by simpa using hx.2)).2
    unfold recomRow
    rw [hf1, hf2]

/-- Witness for C1: a table holding an all-type row before an oily row
for the same acne type; with the oily selection, the resolver returns
the oily row and not the all-type row. -/
theorem recomRow_fallback_witness :
    (∃ r ∈ ([⟨"papule", "semua", none, none⟩,
             ⟨"papule", "oily", none, none⟩] : List Row),
        r.tingkat = "papule" ∧ r.jenisKulit = userSkinTypeCsv "Berminyak") ∧
    (∃ l₁ r l₂,
      ([⟨"papule", "semua", none, none⟩,
        ⟨"papule", "oily", none, none⟩] : List Row) = l₁ ++ r :: l₂ ∧
        r.tingkat = "papule" ∧ r.jenisKulit = userSkinTypeCsv "Berminyak" ∧
        (∀ r' ∈ l₁,
          ¬(r'.tingkat = "papule" ∧ r'.jenisKulit = userSkinTypeCsv "Berminyak")) ∧
        recomRow [⟨"papule", "semua", none, none⟩,
                  ⟨"papule", "oily", none, none⟩] "papule" "Berminyak" = some r) :=
  ⟨by decide,
    (recomRow_fallback
      [⟨"papule", "semua", none, none⟩, ⟨"papule", "oily", none, none⟩]
      "papule" "Berminyak").2.1 (by decide)⟩

/-! ## Argmax lemmas and the classification claims -/

/-- argmaxPair fails exactly on the empty vector. -/
theorem argmaxPair_eq_none {l : List ℚ} : argmaxPair l = none ↔ l = [] := by
  cases l with
  | nil => simp [argmaxPair]
  | cons x xs =>
    simp only [argmaxPair]
    cases h : argmaxPair xs with
    | none => simp
    | some jv =>
      obtain ⟨j, v⟩ := jv
      by_cases hx : x < v <;> simp [hx]

/-- The pair returned by argmaxPair is the first maximum of the list:
its index is in range, it carries the value at that index, every entry
is bounded by it, and every earlier entry is strictly below it. -/
theorem argmaxPair_spec :
    ∀ (l : List ℚ) (j : Nat) (v : ℚ), argmaxPair l = some (j, v) →
      j < l.length ∧ l.getD j 0 = v ∧
        (∀ m, m < l.length → l.getD m 0 ≤ v) ∧
        (∀ m, m < j → l.getD m 0 < v) := by
  intro l
  induction l with
  | nil => intro j v h; simp [argmaxPair] at h
  | cons x xs ih =>
    intro j v h
    simp only [argmaxPair] at h
    cases hxs : argmaxPair xs with
    | none =>
      rw [hxs] at h
      obtain ⟨rfl, rfl⟩ : 0 = j ∧ x = v := by cases h; exact ⟨rfl, rfl⟩
      obtain rfl : xs = [] := argmaxPair_eq_none.mp hxs
      refine ⟨by simp, rfl, ?_, by omega⟩
      intro m hm
      obtain rfl : m = 0 := by simp at hm; omega
      simp
    | some jv =>
      obtain ⟨j0, v0⟩ := jv
      rw [hxs] at h
      obtain ⟨h1, h2, h3, h4⟩ := ih j0 v0 hxs
      have h' : (if x < v0 then some (j0 + 1, v0) else some (0, x)) =
          some (j, v) := h
      clear h
      by_cases hx : x < v0
      · rw [if_pos hx] at h'
        obtain ⟨rfl, rfl⟩ : j0 + 1 = j ∧ v0 = v := by cases h'; exact ⟨rfl, rfl⟩
        refine ⟨by simpa using h1, by simpa using h2, ?_, ?_⟩
        · intro m hm
          cases m with
          | zero => simpa using le_of_lt hx
          | succ m0 => simpa using h3 m0 (by simpa using hm)
        · intro m hm
          cases m with
          | zero => simpa using hx
          | succ m0 => simpa using h4 m0 (by omega)
      · rw [if_neg hx] at h'
        obtain ⟨rfl, rfl⟩ : 0 = j ∧ x = v := by cases h'; exact ⟨rfl, rfl⟩
        refine ⟨by simp, rfl, ?_, by omega⟩
        intro m hm
        cases m with
        | zero => simp
        | succ m0 =>
          have := h3 m0 (by simpa using hm)
          simp only [List.getD_cons_succ]
          exact le_trans this (not_lt.mp hx)

/-- The selected index of a nonempty prediction vector is in range, is
a maximum of the vector, and everything strictly before it is strictly
smaller (first occurrence). -/
theorem acneIndex_spec (pred : List ℚ) (hne : pred ≠ []) :
    acneIndex pred < pred.length ∧
      (∀ m, m < pred.length → pred.getD m 0 ≤ pred.getD (acneIndex pred) 0) ∧
      (∀ m, m < acneIndex pred → pred.getD m 0 < pred.getD (acneIndex pred) 0) := by
  cases hap : argmaxPair pred with
  | none => exact absurd (argmaxPair_eq_none.mp hap) hne
  | some jv =>
    obtain ⟨j, v⟩ := jv
    obtain ⟨h1, h2, h3, h4⟩ := argmaxPair_spec pred j v hap
    have hidx : acneIndex pred = j := by simp [acneIndex, hap]
    rw [hidx, h2]
    exact ⟨h1, h3, h4⟩

/-- C2: classify selects the index of the maximum score; on ties the
smaller index (first occurrence in label order) wins, stated both as
the strict dominance of the selected index over all earlier entries and
as an explicit two-way tie conclusion; the reported confidence is the
score at the selected index. -/
theorem classify_argmax_spec (pred : List ℚ) (classNames : List String)
    (hne : pred ≠ []) (hs : acneIndex pred < classNames.length) :
    acneIndex pred < pred.length ∧
    (∀ m, m < pred.length → pred.getD m 0 ≤ pred.getD (acneIndex pred) 0) ∧
    (∀ m, m < acneIndex pred → pred.getD m 0 < pred.getD (acneIndex pred) 0) ∧
    (∀ i j, i < j → j < pred.length →
      (∀ m, m < pred.length → pred.getD m 0 ≤ pred.getD i 0) →
      pred.getD i 0 = pred.getD j 0 → acneIndex pred ≤ i) ∧
    classify pred classNames =
      some (pyStrip (classNames.getD (acneIndex pred) ""),
        pred.getD (acneIndex pred) 0) := by
  obtain ⟨h1, h2, h3⟩ := acneIndex_spec pred hne
  refine ⟨h1, h2, h3, ?_, ?_⟩
  · intro i j hij hj himax heq
    by_contra hlt
    push_neg at hlt
    have hstrict := h3 i hlt
    have hle := himax (acneIndex pred) h1
    exact absurd (lt_of_lt_of_le hstrict hle) (lt_irrefl _)
  · have hget : classNames.get? (acneIndex pred) =
        some (classNames.getD (acneIndex pred) "") := by
      rw [List.get?_eq_getElem?, List.getD_eq_getElem?_getD,
        List.getElem?_eq_getElem hs]
      rfl
    cases pred with
    | nil => exact absurd rfl hne
    | cons x xs =>
      simp only [classify]
      rw [hget]

/-- Witness for C2 on a vector with a tie between indices 1 and 2: the
selected index is 1 and the confidence is the score there. -/
theorem classify_argmax_spec_witness :
    (([(1 : ℚ), 6, 6] : List ℚ) ≠ []) ∧
    acneIndex [(1 : ℚ), 6, 6] <
      (["blackheads", "whiteheads", "papules"] : List String).length ∧
    acneIndex [(1 : ℚ), 6, 6] = 1 ∧
    classify [(1 : ℚ), 6, 6] ["blackheads", "whiteheads", "papules"] =
      some (pyStrip ((["blackheads", "whiteheads", "papules"] : List String).getD
          (acneIndex [(1 : ℚ), 6, 6]) ""),
        ([(1 : ℚ), 6, 6] : List ℚ).getD (acneIndex [(1 : ℚ), 6, 6]) 0) := by
  have hidx : acneIndex [(1 : ℚ), 6, 6] = 1 := by decide
  refine ⟨by simp, by decide, hidx, ?_⟩
  exact (classify_argmax_spec [(1 : ℚ), 6, 6] ["blackheads", "whiteheads", "papules"]
    (by simp) (by decide)).2.2.2.2

/-- C3 counterexample: a prediction vector with three components against
a label file with two entries; the lengths differ, yet classify returns
a normal result instead of signalling a dimension mismatch, because the
argmax index 0 is a valid label index. -/
theorem classify_dim_mismatch_cex :
    ([(6 : ℚ), 1, 1] : List ℚ).length ≠
      (["blackheads", "whiteheads"] : List String).length ∧
    classify [(6 : ℚ), 1, 1] ["blackheads", "whiteheads"] =
      some ("blackheads", 6) := by
  exact ⟨by simp, by decide⟩

/-- C3 amended: classify signals an error exactly when the argmax index
of the prediction vector is not a valid index into the label list (or
the vector is empty); a length mismatch whose argmax index still falls
inside the label range is not detected. -/
theorem classify_none_iff (pred : List ℚ) (classNames : List String) :
    classify pred classNames = none ↔
      (pred = [] ∨ classNames.length ≤ acneIndex pred) := by
  cases pred with
  | nil => simp [classify]
  | cons x xs =>
    simp only [classify]
    cases hg : classNames.get? (acneIndex (x :: xs)) with
    | none =>
      have := List.get?_eq_none.mp hg
      simp [this]
    | some nm =>
      have hlt : acneIndex (x :: xs) < classNames.length := by
        by_contra hge
        rw [List.get?_eq_none.mpr (not_lt.mp hge)] at hg
        cases hg
      simp [hg]
      omega

/-! ## Lowercasing and normalization claims -/

/-- Packing a valid code point into a character and reading it back is
the identity. -/
theorem toNat_ofNat_of_valid (n : Nat) (h : n.isValidChar) :
    (Char.ofNat n).toNat = n := by
  unfold Char.ofNat
  rw [dif_pos h]
  rfl

/-- Unfolding of the core character lowering. -/
theorem toLower_def (c : Char) :
    Char.toLower c =
      if 65 ≤ c.toNat ∧ c.toNat ≤ 90 then Char.ofNat (c.toNat + 32) else c := rfl

/-- Value computed by the core character lowering on the code point. -/
theorem toLower_toNat (c : Char) :
    (Char.toLower c).toNat =
      if 65 ≤ c.toNat ∧ c.toNat ≤ 90 then c.toNat + 32 else c.toNat := by
  rw [toLower_def]
  split_ifs with h
  · exact toNat_ofNat_of_valid _ (Or.inl (by omega))
  · rfl

/-- A character outside the uppercase ASCII range is left unchanged. -/
theorem toLower_eq_self_of_not (c : Char)
    (h : ¬(65 ≤ c.toNat ∧ c.toNat ≤ 90)) : Char.toLower c = c := by
  rw [toLower_def, if_neg h]

/-- Lowering a character twice is the same as lowering it once. -/
theorem toLower_idem (c : Char) :
    Char.toLower (Char.toLower c) = Char.toLower c := by
  by_cases h : 65 ≤ c.toNat ∧ c.toNat ≤ 90
  · apply toLower_eq_self_of_not
    rw [toLower_toNat, if_pos h]
    omega
  · rw [toLower_eq_self_of_not c h]
    exact toLower_eq_self_of_not c h

/-- Mapping the character lowering twice over a character list is the
same as mapping it once. -/
theorem mapToLower_idem :
    ∀ l : List Char, (l.map Char.toLower).map Char.toLower = l.map Char.toLower := by
  intro l
  induction l with
  | nil => rfl
  | cons a l ih => simp [toLower_idem, ih]

/-- Lowercasing a string is idempotent. -/
theorem pyLower_idem (s : String) : pyLower (pyLower s) = pyLower s := by
  simp only [pyLower]
  exact congrArg String.mk (mapToLower_idem s.data)

/-- Normalization is idempotent: each of the seven outcomes of the
if-elif chain is a fixed point of a second normalization pass. -/
theorem acneClassForCsv_idem_aux (x : String) :
    acneClassForCsv (acneClassForCsv x) = acneClassForCsv x := by
  have hp := pyLower_idem x
  by_cases h1 : pyLower x = "blackheads"
  · have hx : acneClassForCsv x = "blackhead" := by
      unfold acneClassForCsv
      rw [if_pos h1]
    rw [hx]
    decide
  · by_cases h2 : pyLower x = "whiteheads"
    · have hx : acneClassForCsv x = "whitehead" := by
        unfold acneClassForCsv
        rw [if_neg h1, if_pos h2]
      rw [hx]
      decide
    · by_cases h3 : pyLower x = "papules"
      · have hx : acneClassForCsv x = "papule" := by
          unfold acneClassForCsv
          rw [if_neg h1, if_neg h2, if_pos h3]
        rw [hx]
        decide
      · by_cases h4 : pyLower x = "pustules"
        · have hx : acneClassForCsv x = "pustule" := by
            unfold acneClassForCsv
            rw [if_neg h1, if_neg h2, if_neg h3, if_pos h4]
          rw [hx]
          decide
        · by_cases h5 : pyLower x = "cystic"
          · have hx : acneClassForCsv x = "cystic" := by
              unfold acneClassForCsv
              rw [if_neg h1, if_neg h2, if_neg h3, if_neg h4, if_pos h5]
            rw [hx]
            decide
          · by_cases h6 : pyLower x = "lv0"
            · have hx : acneClassForCsv x = "lv0" := by
                unfold acneClassForCsv
                rw [if_neg h1, if_neg h2, if_neg h3, if_neg h4, if_neg h5,
                  if_pos h6]
              rw [hx]
              decide
            · have hx : acneClassForCsv x = pyLower x := by
                unfold acneClassForCsv
                rw [if_neg h1, if_neg h2, if_neg h3, if_neg h4, if_neg h5,
                  if_neg h6]
              rw [hx]
              unfold acneClassForCsv
              rw [hp]
              rw [if_neg h1, if_neg h2, if_neg h3, if_neg h4, if_neg h5,
                if_neg h6]

/-- C6: label normalization lower-cases and maps the four known plural
forms to their singular forms; any label whose lowercase form is not in
the lookup passes through as its lowercase form; and the whole
normalization is idempotent on every input string. -/
theorem acneClassForCsv_spec (x : String) :
    acneClassForCsv (acneClassForCsv x) = acneClassForCsv x ∧
    acneClassForCsv "blackheads" = "blackhead" ∧
    acneClassForCsv "whiteheads" = "whitehead" ∧
    acneClassForCsv "papules" = "papule" ∧
    acneClassForCsv "pustules" = "pustule" ∧
    (pyLower x ∉ (["blackheads", "whiteheads", "papules", "pustules"] : List String) →
      acneClassForCsv x = pyLower x) := by
  refine ⟨acneClassForCsv_idem_aux x, by decide, by decide, by decide, by decide, ?_⟩
  intro hx
  simp only [List.mem_cons, List.not_mem_nil, or_false, not_or] at hx
  obtain ⟨n1, n2, n3, n4⟩ := hx
  unfold acneClassForCsv
  rw [if_neg n1, if_neg n2, if_neg n3, if_neg n4]
  by_cases h5 : pyLower x = "cystic"
  · rw [if_pos h5]
    exact h5.symm
  · rw [if_neg h5]
    by_cases h6 : pyLower x = "lv0"
    · rw [if_pos h6]
      exact h6.symm
    · rw [if_neg h6]

/-- Witness for C6 at a mixed-case passthrough label. -/
theorem acneClassForCsv_spec_witness :
    (pyLower "Cystic" ∉
        (["blackheads", "whiteheads", "papules", "pustules"] : List String)) ∧
      acneClassForCsv "Cystic" = pyLower "Cystic" :=
  ⟨by decide, (acneClassForCsv_spec "Cystic").2.2.2.2.2 (by decide)⟩

/-! ## Journal lemmas and claims -/

/-- The lexicographic character comparison is irreflexive. -/
theorem charListLt_irrefl : ∀ l : List Char, charListLt l l = false := by
  intro l
  induction l with
  | nil => rfl
  | cons a l ih => simp [charListLt, ih]

/-- The date comparison is irreflexive. -/
theorem dateLtB_irrefl (a : String) : dateLtB a a = false :=
  charListLt_irrefl a.data

/-- Membership in a descending insertion. -/
theorem mem_insertDesc (x e : JournalEntry) :
    ∀ l : List JournalEntry, x ∈ insertDesc e l ↔ x = e ∨ x ∈ l := by
  intro l
  induction l with
  | nil => simp [insertDesc]
  | cons y ys ih =>
    simp only [insertDesc]
    by_cases hd : dateLtB e.date y.date = true
    · rw [if_pos hd, List.mem_cons, ih, List.mem_cons]
      tauto
    · rw [if_neg hd, List.mem_cons, List.mem_cons]

/-- Sorting the journal entries does not change membership. -/
theorem mem_sortDescByDate (x : JournalEntry) :
    ∀ l : List JournalEntry, x ∈ sortDescByDate l ↔ x ∈ l := by
  intro l
  induction l with
  | nil => simp [sortDescByDate]
  | cons y ys ih =>
    show x ∈ insertDesc y (sortDescByDate ys) ↔ x ∈ y :: ys
    rw [mem_insertDesc, ih, List.mem_cons]

/-- Inserting an entry below a strictly newer head keeps the head. -/
theorem insertDesc_cons_of_lt (a e : JournalEntry) (l : List JournalEntry)
    (h : dateLtB a.date e.date = true) :
    insertDesc a (e :: l) = e :: insertDesc a l := by
  show (if dateLtB a.date e.date = true then e :: insertDesc a l
    else a :: e :: l) = e :: insertDesc a l
  rw [if_pos h]

/-- Appending an entry strictly newer than every existing entry and
sorting puts the new entry at the head. -/
theorem sortDescByDate_append_newest (e : JournalEntry) :
    ∀ l : List JournalEntry, (∀ y ∈ l, dateLtB y.date e.date = true) →
      sortDescByDate (l ++ [e]) = e :: sortDescByDate l := by
  intro l
  induction l with
  | nil => intro _; rfl
  | cons a l ih =>
    intro hall
    have hstep : sortDescByDate ((a :: l) ++ [e]) =
        insertDesc a (sortDescByDate (l ++ [e])) := rfl
    rw [hstep, ih (fun y hy => hall y (List.mem_cons_of_mem a hy))]
    exact insertDesc_cons_of_lt a e _ (hall a (List.mem_cons_self a l))

/-- C4: deleting a saved entry removes one occurrence of it from the
in-memory list (leaving all other entries untouched), rewrites the
metadata store to exactly the remaining entries, and removes the
associated image file from the store; the removal and rewrite take
effect whether or not the image file was present, a missing file being
skipped as the non-fatal best-effort branch. -/
theorem deleteJournalEntry_spec (s : JournalState) (e : JournalEntry)
    (h : e ∈ s.entries) :
    (deleteJournalEntry s e).entries.count e = s.entries.count e - 1 ∧
    (∀ e', e' ≠ e → (deleteJournalEntry s e).entries.count e' = s.entries.count e') ∧
    (deleteJournalEntry s e).metadataFile = (deleteJournalEntry s e).entries ∧
    (∀ f, f ∈ (deleteJournalEntry s e).imageFiles ↔
      (f ∈ s.imageFiles ∧ f ≠ e.imagePath)) := by
  refine ⟨?_, ?_, rfl, ?_⟩
  · simp [deleteJournalEntry]
  · intro e' he'
    simp [deleteJournalEntry, List.count_erase_of_ne he']
  · intro f
    simp only [deleteJournalEntry]
    by_cases hmem : e.imagePath ∈ s.imageFiles
    · rw [if_pos hmem]
      rw [Finset.mem_erase]
      tauto
    · rw [if_neg hmem]
      constructor
      · intro hf
        exact ⟨hf, fun heq => hmem (heq ▸ hf)⟩
      · exact fun hf => hf.1

/-- Witness for C4 on a one-entry journal whose image file is present. -/
theorem deleteJournalEntry_spec_witness :
    ((⟨"2025-01-01 10:00:00", "progress_image_a.jpg", "hi"⟩ : JournalEntry) ∈
        (⟨[⟨"2025-01-01 10:00:00", "progress_image_a.jpg", "hi"⟩],
          [⟨"2025-01-01 10:00:00", "progress_image_a.jpg", "hi"⟩],
          {"progress_image_a.jpg"}⟩ : JournalState).entries) ∧
    ((deleteJournalEntry
        ⟨[⟨"2025-01-01 10:00:00", "progress_image_a.jpg", "hi"⟩],
          [⟨"2025-01-01 10:00:00", "progress_image_a.jpg", "hi"⟩],
          {"progress_image_a.jpg"}⟩
        ⟨"2025-01-01 10:00:00", "progress_image_a.jpg", "hi"⟩).entries.count
          ⟨"2025-01-01 10:00:00", "progress_image_a.jpg", "hi"⟩ =
      ([⟨"2025-01-01 10:00:00", "progress_image_a.jpg", "hi"⟩] :
        List JournalEntry).count
          ⟨"2025-01-01 10:00:00", "progress_image_a.jpg", "hi"⟩ - 1) :=
  ⟨by decide,
    (deleteJournalEntry_spec
      ⟨[⟨"2025-01-01 10:00:00", "progress_image_a.jpg", "hi"⟩],
        [⟨"2025-01-01 10:00:00", "progress_image_a.jpg", "hi"⟩],
        {"progress_image_a.jpg"}⟩
      ⟨"2025-01-01 10:00:00", "progress_image_a.jpg", "hi"⟩ (by decide)).1⟩

/-- C9: the default note is applied exactly when the supplied note is
empty: adding with an empty note stores the entry with note No note.,
and adding with any nonempty note stores that note verbatim. -/
theorem addJournalEntry_note (s : JournalState) (ts ext dateStr note : String) :
    ((addJournalEntry s ts ext dateStr "").entries.map JournalEntry.note).getLast? =
      some "No note." ∧
    (note ≠ "" →
      ((addJournalEntry s ts ext dateStr note).entries.map
        JournalEntry.note).getLast? = some note) := by
  constructor
  · simp [addJournalEntry, List.getLast?_concat]
  · intro hn
    simp [addJournalEntry, if_neg hn, List.getLast?_concat]

/-- Witness for C9 with a nonempty note. -/
theorem addJournalEntry_note_witness :
    ("hello" ≠ "") ∧
    (((addJournalEntry ⟨[], [], ∅⟩ "20250101_100000" "jpg"
        "2025-01-01 10:00:00" "hello").entries.map JournalEntry.note).getLast? =
      some "hello") :=
  ⟨by decide,
    (addJournalEntry_note ⟨[], [], ∅⟩ "20250101_100000" "jpg"
      "2025-01-01 10:00:00" "hello").2 (by decide)⟩

/-- C5: adding an entry with a nonempty note and a date strictly newer
than every stored entry, then listing, yields the new entry with its
note stored verbatim, its image file present in the store, and the
entry at the head of the date-descending listing; deleting that entry
afterwards removes it from the entries and the listing and removes its
image file. -/
theorem journal_roundtrip (s : JournalState) (ts ext dateStr note : String)
    (hnote : note ≠ "")
    (hnew : ∀ e ∈ s.entries, dateLtB e.date dateStr = true) :
    (addJournalEntry s ts ext dateStr note).entries.getLast? =
      some ⟨dateStr, imageFilename ts ext, note⟩ ∧
    (⟨dateStr, imageFilename ts ext, note⟩ : JournalEntry) ∈
      listJournal (addJournalEntry s ts ext dateStr note) ∧
    imageFilename ts ext ∈ (addJournalEntry s ts ext dateStr note).imageFiles ∧
    (listJournal (addJournalEntry s ts ext dateStr note)).head? =
      some ⟨dateStr, imageFilename ts ext, note⟩ ∧
    (⟨dateStr, imageFilename ts ext, note⟩ : JournalEntry) ∉
      (deleteJournalEntry (addJournalEntry s ts ext dateStr note)
        ⟨dateStr, imageFilename ts ext, note⟩).entries ∧
    (⟨dateStr, imageFilename ts ext, note⟩ : JournalEntry) ∉
      listJournal (deleteJournalEntry (addJournalEntry s ts ext dateStr note)
        ⟨dateStr, imageFilename ts ext, note⟩) ∧
    imageFilename ts ext ∉
      (deleteJournalEntry (addJournalEntry s ts ext dateStr note)
        ⟨dateStr, imageFilename ts ext, note⟩).imageFiles := by
  have hent : (addJournalEntry s ts ext dateStr note).entries =
      s.entries ++ [⟨dateStr, imageFilename ts ext, note⟩] := by
    simp [addJournalEntry, if_neg hnote]
  have hnotmem : (⟨dateStr, imageFilename ts ext, note⟩ : JournalEntry) ∉
      s.entries := by
    intro hmem
    have := hnew _ hmem
    rw [dateLtB_irrefl] at this
    cases this
  have hsorted : listJournal (addJournalEntry s ts ext dateStr note) =
      (⟨dateStr, imageFilename ts ext, note⟩ : JournalEntry) ::
        sortDescByDate s.entries := by
    unfold listJournal
    rw [hent]
    exact sortDescByDate_append_newest _ s.entries hnew
  have hdel : (deleteJournalEntry (addJournalEntry s ts ext dateStr note)
      ⟨dateStr, imageFilename ts ext, note⟩).entries = s.entries := by
    simp only [deleteJournalEntry, hent]
    rw [List.erase_append_right _ hnotmem, List.erase_cons_head,
      List.append_nil]
  refine ⟨?_, ?_, ?_, ?_, ?_, ?_, ?_⟩
  · rw [hent]
    exact List.getLast?_concat _
  · rw [hsorted]
    exact List.mem_cons_self _ _
  · simp [addJournalEntry]
  · rw [hsorted]
    rfl
  · rw [hdel]
    exact hnotmem
  · unfold listJournal
    rw [hdel, mem_sortDescByDate]
    exact hnotmem
  · simp only [deleteJournalEntry]
    rw [if_pos (by simp [addJournalEntry])]
    simp [addJournalEntry]

/-- Witness for C5: a journal with one older entry, a newer add, and
the round trip through list and delete. -/
theorem journal_roundtrip_witness :
    ("note" ≠ "") ∧
    (∀ e ∈ (⟨[⟨"2025-01-01 00:00:00", "progress_image_old.jpg", "old"⟩],
        [⟨"2025-01-01 00:00:00", "progress_image_old.jpg", "old"⟩],
        {"progress_image_old.jpg"}⟩ : JournalState).entries,
      dateLtB e.date "2025-06-02 12:00:00" = true) ∧
    (listJournal (addJournalEntry
        ⟨[⟨"2025-01-01 00:00:00", "progress_image_old.jpg", "old"⟩],
          [⟨"2025-01-01 00:00:00", "progress_image_old.jpg", "old"⟩],
          {"progress_image_old.jpg"}⟩
        "20250602_120000" "jpg" "2025-06-02 12:00:00" "note")).head? =
      some ⟨"2025-06-02 12:00:00", imageFilename "20250602_120000" "jpg", "note"⟩ :=
  ⟨by decide, by decide,
    (journal_roundtrip
      ⟨[⟨"2025-01-01 00:00:00", "progress_image_old.jpg", "old"⟩],
        [⟨"2025-01-01 00:00:00", "progress_image_old.jpg", "old"⟩],
        {"progress_image_old.jpg"}⟩
      "20250602_120000" "jpg" "2025-06-02 12:00:00" "note"
      (by decide) (by decide)).2.2.2.1⟩

end Acnee
